import Mathlib

set_option maxRecDepth 100000

/-!
# Verification of the Transfer lifecycle engine (`src/coinbase/transfer.ts`)

This file shallowly embeds the `Transfer` class of the repository:
payload decoding (`getTransaction`), amount normalization (`getAmount`),
status resolution (`getStatus`), the polling loop (`wait`), and the
signed-transaction setter (`setSignedTransaction`), together with the
JavaScript primitives they rely on (`String.prototype.match(/../g)`,
`parseInt(s, 16)`, `Uint8Array` element coercion, `TextDecoder` UTF-8
decoding, `JSON.parse`, and `BigInt` conversion).
-/

namespace CoinbaseSdk

/-! ## JavaScript character classes -/

/-- ECMAScript LineTerminator code points: LF, CR, LS, PS.  The regexp
dot `.` (without the `s` flag) matches any character except these. -/
def isLineTerminator (c : Char) : Bool :=
  c = Char.ofNat 0x0A || c = Char.ofNat 0x0D ||
  c = Char.ofNat 0x2028 || c = Char.ofNat 0x2029

/-- ECMAScript StrWhiteSpaceChar (the characters trimmed by `parseInt` and
`StringToBigInt`): WhiteSpace plus LineTerminator.  The common members are
modelled: TAB, LF, VT, FF, CR, SP, NBSP, LS, PS, BOM. -/
def isJsWhiteSpace (c : Char) : Bool :=
  c = Char.ofNat 0x09 || c = Char.ofNat 0x0A || c = Char.ofNat 0x0B ||
  c = Char.ofNat 0x0C || c = Char.ofNat 0x0D || c = Char.ofNat 0x20 ||
  c = Char.ofNat 0xA0 || c = Char.ofNat 0x2028 || c = Char.ofNat 0x2029 ||
  c = Char.ofNat 0xFEFF

/-! ## `String.prototype.match(/../g)`

Global matching of the regexp `..`: scanning left to right, at each
position the engine tries to match two consecutive non-LineTerminator
characters; on success both are consumed, on failure the scan advances by
one character.  `match` returns `null` (here: the empty list, tested by
the caller) exactly when no match occurs anywhere. -/

/-- All matches of `/../g` over a character list. -/
def jsDotPairs : List Char → List (Char × Char)
  | c₁ :: c₂ :: rest =>
    if ¬ isLineTerminator c₁ ∧ ¬ isLineTerminator c₂ then
      (c₁, c₂) :: jsDotPairs rest
    else
      jsDotPairs (c₂ :: rest)
  | _ => []

/-! ## `parseInt(pair, 16)` -/

/-- Value of a hexadecimal digit (both cases), `none` otherwise. -/
def hexDigitVal (c : Char) : Option ℕ :=
  if '0' ≤ c ∧ c ≤ '9' then some (c.toNat - '0'.toNat)
  else if 'a' ≤ c ∧ c ≤ 'f' then some (c.toNat - 'a'.toNat + 10)
  else if 'A' ≤ c ∧ c ≤ 'F' then some (c.toNat - 'A'.toNat + 10)
  else none

/-- Longest prefix of hexadecimal digits, as a number; `none` when the
first character is not a hex digit (`parseInt` then yields `NaN`). -/
def hexPrefixVal : List Char → ℕ → Option ℕ
  | [], acc => some acc
  | c :: rest, acc =>
    match hexDigitVal c with
    | some d => hexPrefixVal rest (acc * 16 + d)
    | none => some acc

/-- `parseInt(s, 16)`: trim leading StrWhiteSpace, read an optional sign,
strip an optional `0x`/`0X` prefix, then read the longest prefix of hex
digits; `none` models `NaN` (no digits at all). -/
def jsParseIntHex (s : List Char) : Option ℤ :=
  let s₁ := s.dropWhile isJsWhiteSpace
  let (neg, s₂) : Bool × List Char :=
    match s₁ with
    | '-' :: rest => (true, rest)
    | '+' :: rest => (false, rest)
    | _ => (false, s₁)
  let s₃ : List Char :=
    match s₂ with
    | '0' :: 'x' :: rest => rest
    | '0' :: 'X' :: rest => rest
    | _ => s₂
  match s₃ with
  | [] => none
  | c :: _ =>
    match hexDigitVal c with
    | none => none
    | some _ =>
      match hexPrefixVal s₃ 0 with
      | some v => some (if neg then -(v : ℤ) else (v : ℤ))
      | none => none

/-- `Uint8Array` element coercion: `NaN` becomes `0`, other integers are
taken modulo 256. -/
def toUint8 : Option ℤ → ℕ
  | none => 0
  | some n => (n % 256).toNat

/-- The byte extraction step of `Transfer.getTransaction`:
`this.getUnsignedPayload().match(/../g)?.map(byte => parseInt(byte, 16))`,
followed by the `Uint8Array` construction.  `none` models the `null`
result of `match` (no pair matched anywhere). -/
def getUnsignedPayloadBytes (payload : String) : Option (List ℕ) :=
  match jsDotPairs payload.toList with
  | [] => none
  | pairs => some (pairs.map fun p => toUint8 (jsParseIntHex [p.1, p.2]))

/-! ## `TextDecoder` (UTF-8, non-fatal mode)

The default `TextDecoder` never throws: malformed sequences are replaced
by U+FFFD and decoding resumes at the offending byte. -/

/-- The replacement character U+FFFD. -/
def replacementChar : Char := Char.ofNat 0xFFFD

/-- WHATWG UTF-8 decoding with replacement.  Range checks on continuation
bytes follow the standard table (no overlong encodings, no surrogates,
maximum U+10FFFF). -/
def utf8Decode : List ℕ → List Char
  | [] => []
  | b₁ :: rest =>
    if b₁ < 0x80 then Char.ofNat b₁ :: utf8Decode rest
    else if 0xC2 ≤ b₁ ∧ b₁ ≤ 0xDF then
      match rest with
      | [] => [replacementChar]
      | b₂ :: rest₂ =>
        if 0x80 ≤ b₂ ∧ b₂ ≤ 0xBF then
          Char.ofNat ((b₁ - 0xC0) * 64 + (b₂ - 0x80)) :: utf8Decode rest₂
        else replacementChar :: utf8Decode (b₂ :: rest₂)
    else if 0xE0 ≤ b₁ ∧ b₁ ≤ 0xEF then
      match rest with
      | [] => [replacementChar]
      | b₂ :: rest₂ =>
        let lo₂ : ℕ := if b₁ = 0xE0 then 0xA0 else 0x80
        let hi₂ : ℕ := if b₁ = 0xED then 0x9F else 0xBF
        if lo₂ ≤ b₂ ∧ b₂ ≤ hi₂ then
          match rest₂ with
          | [] => [replacementChar]
          | b₃ :: rest₃ =>
            if 0x80 ≤ b₃ ∧ b₃ ≤ 0xBF then
              Char.ofNat ((b₁ - 0xE0) * 4096 + (b₂ - 0x80) * 64 + (b₃ - 0x80)) ::
                utf8Decode rest₃
            else replacementChar :: utf8Decode (b₃ :: rest₃)
        else replacementChar :: utf8Decode (b₂ :: rest₂)
    else if 0xF0 ≤ b₁ ∧ b₁ ≤ 0xF4 then
      match rest with
      | [] => [replacementChar]
      | b₂ :: rest₂ =>
        let lo₂ : ℕ := if b₁ = 0xF0 then 0x90 else 0x80
        let hi₂ : ℕ := if b₁ = 0xF4 then 0x8F else 0xBF
        if lo₂ ≤ b₂ ∧ b₂ ≤ hi₂ then
          match rest₂ with
          | [] => [replacementChar]
          | b₃ :: rest₃ =>
            if 0x80 ≤ b₃ ∧ b₃ ≤ 0xBF then
              match rest₃ with
              | [] => [replacementChar]
              | b₄ :: rest₄ =>
                if 0x80 ≤ b₄ ∧ b₄ ≤ 0xBF then
                  Char.ofNat
                    ((b₁ - 0xF0) * 262144 + (b₂ - 0x80) * 4096 +
                      (b₃ - 0x80) * 64 + (b₄ - 0x80)) :: utf8Decode rest₄
                else replacementChar :: utf8Decode (b₄ :: rest₄)
            else replacementChar :: utf8Decode (b₃ :: rest₃)
        else replacementChar :: utf8Decode (b₂ :: rest₂)
    else replacementChar :: utf8Decode rest

/-! ## JavaScript numbers and JSON values

`JSON.parse` represents every JSON number literal as an IEEE-754 binary64
value.  A finite double is an exact rational; the model keeps that exact
rational, plus the two infinities reachable by overflow. -/

/-- A JavaScript number as produced by `JSON.parse`: a finite binary64
value — represented exactly as `sig * 2 ^ ex` with integer significand
and exponent — or an infinity. -/
inductive JsNum where
  | finite : ℤ → ℤ → JsNum
  | inf : JsNum
  | negInf : JsNum
deriving DecidableEq

/-- A JSON value as produced by `JSON.parse`. -/
inductive Json where
  | null : Json
  | bool : Bool → Json
  | num : JsNum → Json
  | str : String → Json
  | arr : List Json → Json
  | obj : List (String × Json) → Json

/-- `⌊log2 n⌋` by repeated halving (fuel-indexed structural recursion;
fuel `n` always suffices). -/
def log2Fuel : ℕ → ℕ → ℕ
  | 0, _ => 0
  | fuel + 1, n => if 2 ≤ n then log2Fuel fuel (n / 2) + 1 else 0

/-- `⌊log2 n⌋` for `n ≥ 1`. -/
def natLog2 (n : ℕ) : ℕ := log2Fuel n n

/-- `2 ^ e ≤ n / d` (exact fraction) decided by integer cross-multiplication. -/
def pow2LeFrac (e : ℤ) (n d : ℕ) : Bool :=
  if 0 ≤ e then d * 2 ^ e.toNat ≤ n else d ≤ n * 2 ^ (-e).toNat

/-- `n / d < 2 ^ e` decided by integer cross-multiplication. -/
def fracLtPow2 (n d : ℕ) (e : ℤ) : Bool :=
  if 0 ≤ e then n < d * 2 ^ e.toNat else n * 2 ^ (-e).toNat < d

/-- For `n, d ≥ 1`, the exponent `e` with `2 ^ e ≤ n / d < 2 ^ (e + 1)`:
a `log2`-difference estimate corrected by one comparison step. -/
def floorLog2Frac (n d : ℕ) : ℤ :=
  let e₀ : ℤ := (natLog2 n : ℤ) - (natLog2 d : ℤ)
  if pow2LeFrac (e₀ + 1) n d then e₀ + 1
  else if fracLtPow2 n d e₀ then e₀ - 1
  else e₀

/-- Round the positive ratio `n / d` (with the given sign) to the nearest
IEEE-754 binary64 value: round to nearest, ties to even, gradual
underflow, overflow to infinity.  All arithmetic is exact integer
arithmetic. -/
def roundFracToDouble (sign : Bool) (n d : ℕ) : JsNum :=
  let e := floorLog2Frac n d
  let t : ℤ := max (e - 52) (-1074)
  let scaled : ℕ × ℕ := if 0 ≤ t then (n, d * 2 ^ t.toNat) else (n * 2 ^ (-t).toNat, d)
  let q := scaled.1 / scaled.2
  let r := scaled.1 % scaled.2
  let sig :=
    if 2 * r < scaled.2 then q
    else if scaled.2 < 2 * r then q + 1
    else if q % 2 = 0 then q else q + 1
  if 2 ^ ((1024 : ℤ) - t).toNat ≤ sig then (if sign then .negInf else .inf)
  else .finite (if sign then -(sig : ℤ) else (sig : ℤ)) t

/-- Round the exact decimal value `a * 10 ^ e10` to binary64, as
`JSON.parse` does when it materializes a number literal as a double. -/
def roundDecToDouble (a : ℤ) (e10 : ℤ) : JsNum :=
  if a = 0 then .finite 0 0
  else if 0 ≤ e10 then roundFracToDouble (a < 0) (a.natAbs * 10 ^ e10.toNat) 1
  else roundFracToDouble (a < 0) a.natAbs (10 ^ (-e10).toNat)

/-! ## `JSON.parse` -/

/-- JSON insignificant whitespace. -/
def skipWs (l : List Char) : List Char :=
  l.dropWhile fun c => c = ' ' || c = '\t' || c = '\n' || c = '\r'

/-- Content of a JSON string after the opening quote: returns the decoded
characters and the remainder after the closing quote; `none` on an
unterminated string, a control character, or an invalid escape.
A `\uXXXX` escape denoting a lone surrogate is mapped to NUL by
`Char.ofNat` (such payloads appear in no claim). -/
def jsonStringChars : List Char → Option (List Char × List Char)
  | [] => none
  | '"' :: rest => some ([], rest)
  | '\\' :: esc =>
    match esc with
    | 'u' :: a :: b :: c :: d :: rest =>
      match hexDigitVal a, hexDigitVal b, hexDigitVal c, hexDigitVal d with
      | some va, some vb, some vc, some vd =>
        (jsonStringChars rest).map fun p =>
          (Char.ofNat (va * 4096 + vb * 256 + vc * 16 + vd) :: p.1, p.2)
      | _, _, _, _ => none
    | e :: rest =>
      let c? : Option Char :=
        if e = '"' then some '"'
        else if e = '\\' then some '\\'
        else if e = '/' then some '/'
        else if e = 'b' then some (Char.ofNat 8)
        else if e = 'f' then some (Char.ofNat 12)
        else if e = 'n' then some '\n'
        else if e = 'r' then some (Char.ofNat 13)
        else if e = 't' then some '\t'
        else none
      match c? with
      | some c => (jsonStringChars rest).map fun p => (c :: p.1, p.2)
      | none => none
    | [] => none
  | c :: rest =>
    if c.toNat < 0x20 then none
    else (jsonStringChars rest).map fun p => (c :: p.1, p.2)

/-- Longest prefix of decimal digits: value, digit count, remainder. -/
def decDigits : List Char → ℕ → ℕ → ℕ × ℕ × List Char
  | [], acc, k => (acc, k, [])
  | c :: rest, acc, k =>
    if '0' ≤ c ∧ c ≤ '9' then decDigits rest (acc * 10 + (c.toNat - '0'.toNat)) (k + 1)
    else (acc, k, c :: rest)

/-- JSON number literal (grammar `-? int frac? exp?`): the exact decimal
value is accumulated in integer arithmetic and then rounded to binary64,
as `JSON.parse` does when it materializes the literal as a double. -/
def parseJsonNumber (l : List Char) : Option (JsNum × List Char) :=
  let (neg, l₁) : Bool × List Char :=
    match l with
    | '-' :: rest => (true, rest)
    | _ => (false, l)
  let intPart? : Option (ℕ × List Char) :=
    match l₁ with
    | '0' :: rest => some (0, rest)
    | c :: _ =>
      if '1' ≤ c ∧ c ≤ '9' then
        let (v, _, rest) := decDigits l₁ 0 0
        some (v, rest)
      else none
    | [] => none
  match intPart? with
  | none => none
  | some (ip, l₂) =>
    let fracPart? : Option (ℕ × ℕ × List Char) :=
      match l₂ with
      | '.' :: rest =>
        let (v, k, rest₂) := decDigits rest 0 0
        if k = 0 then none else some (v, k, rest₂)
      | _ => some (0, 0, l₂)
    match fracPart? with
    | none => none
    | some (fv, fk, l₃) =>
      let expPart? : Option (ℤ × List Char) :=
        match l₃ with
        | 'e' :: rest | 'E' :: rest =>
          let (eneg, rest₂) : Bool × List Char :=
            match rest with
            | '-' :: r => (true, r)
            | '+' :: r => (false, r)
            | _ => (false, rest)
          let (v, k, rest₃) := decDigits rest₂ 0 0
          if k = 0 then none else some (if eneg then -(v : ℤ) else (v : ℤ), rest₃)
        | _ => some (0, l₃)
      match expPart? with
      | none => none
      | some (ex, l₄) =>
        let mantissa : ℤ := (ip * 10 ^ fk + fv : ℕ)
        let a : ℤ := if neg then -mantissa else mantissa
        some (roundDecToDouble a (ex - fk), l₄)

mutual

/-- Recursive-descent `JSON.parse` value parser, fuel-indexed (the fuel
passed at top level always suffices for the input length). -/
def parseValue : ℕ → List Char → Option (Json × List Char)
  | 0, _ => none
  | fuel + 1, l =>
    match skipWs l with
    | 'n' :: 'u' :: 'l' :: 'l' :: rest => some (.null, rest)
    | 't' :: 'r' :: 'u' :: 'e' :: rest => some (.bool true, rest)
    | 'f' :: 'a' :: 'l' :: 's' :: 'e' :: rest => some (.bool false, rest)
    | '"' :: rest => (jsonStringChars rest).map fun p => (.str ⟨p.1⟩, p.2)
    | '[' :: rest =>
      (match skipWs rest with
       | ']' :: rest₂ => some (.arr [], rest₂)
       | l₂ => parseElements fuel l₂ [])
    | '{' :: rest =>
      (match skipWs rest with
       | '}' :: rest₂ => some (.obj [], rest₂)
       | l₂ => parseMembers fuel l₂ [])
    | l₂ => (parseJsonNumber l₂).map fun p => (.num p.1, p.2)

/-- Array elements after `[` (first element not yet parsed). -/
def parseElements : ℕ → List Char → List Json → Option (Json × List Char)
  | 0, _, _ => none
  | fuel + 1, l, acc =>
    match parseValue fuel l with
    | none => none
    | some (v, rest) =>
      match skipWs rest with
      | ',' :: rest₂ => parseElements fuel rest₂ (acc ++ [v])
      | ']' :: rest₂ => some (.arr (acc ++ [v]), rest₂)
      | _ => none

def parseMembers : ℕ → List Char → List (String × Json) → Option (Json × List Char)
  | 0, _, _ => none
  | fuel + 1, l, acc =>
    match skipWs l with
    | '"' :: rest =>
      match jsonStringChars rest with
      | none => none
      | some (key, rest₂) =>
        match skipWs rest₂ with
        | ':' :: rest₃ =>
          match parseValue fuel rest₃ with
          | none => none
          | some (v, rest₄) =>
            match skipWs rest₄ with
            | ',' :: rest₅ => parseMembers fuel rest₅ (acc ++ [(⟨key⟩, v)])
            | '}' :: rest₅ => some (.obj (acc ++ [(⟨key⟩, v)]), rest₅)
            | _ => none
        | _ => none
    | _ => none

end

/-- `JSON.parse`: parse one value and require only whitespace after it;
`none` models a thrown `SyntaxError`. -/
def jsonParse (s : String) : Option Json :=
  match parseValue (2 * s.length + 8) s.toList with
  | some (v, rest) => if skipWs rest = [] then some v else none
  | none => none

/-! ## `BigInt` conversion -/

/-- Native JavaScript errors that `Transfer.getTransaction` does not
catch (its `try` block covers only the `TextDecoder`/`JSON.parse` step). -/
inductive JsError where
  | typeError : JsError
  | rangeError : JsError
  | syntaxError : JsError
deriving DecidableEq

/-- Value of a decimal digit, `none` otherwise. -/
def decDigitVal (c : Char) : Option ℕ :=
  if '0' ≤ c ∧ c ≤ '9' then some (c.toNat - '0'.toNat) else none

/-- Value of a binary digit, `none` otherwise. -/
def binDigitVal (c : Char) : Option ℕ :=
  if c = '0' then some 0 else if c = '1' then some 1 else none

/-- Value of an octal digit, `none` otherwise. -/
def octDigitVal (c : Char) : Option ℕ :=
  if '0' ≤ c ∧ c ≤ '7' then some (c.toNat - '0'.toNat) else none

/-- Positional value of a digit string in which every character must be a
digit of the base; `none` otherwise. -/
def digitsToNat (digVal : Char → Option ℕ) (base : ℕ) : List Char → ℕ → Option ℕ
  | [], acc => some acc
  | c :: rest, acc =>
    match digVal c with
    | some d => digitsToNat digVal base rest (acc * base + d)
    | none => none

/-- ECMAScript `StringToBigInt`: trim StrWhiteSpace at both ends; an empty
remainder is `0`; otherwise the whole remainder must be a `0x`/`0o`/`0b`
literal (no sign) or an optionally signed decimal literal; `none` models
the `SyntaxError` thrown by `BigInt(string)` on anything else. -/
def strToBigInt (s : String) : Option ℤ :=
  let l := ((s.toList.dropWhile isJsWhiteSpace).reverse.dropWhile isJsWhiteSpace).reverse
  match l with
  | [] => some 0
  | '0' :: 'x' :: rest =>
    match rest with
    | [] => none
    | _ => (digitsToNat hexDigitVal 16 rest 0).map fun v => (v : ℤ)
  | '0' :: 'X' :: rest =>
    match rest with
    | [] => none
    | _ => (digitsToNat hexDigitVal 16 rest 0).map fun v => (v : ℤ)
  | '0' :: 'o' :: rest =>
    match rest with
    | [] => none
    | _ => (digitsToNat octDigitVal 8 rest 0).map fun v => (v : ℤ)
  | '0' :: 'O' :: rest =>
    match rest with
    | [] => none
    | _ => (digitsToNat octDigitVal 8 rest 0).map fun v => (v : ℤ)
  | '0' :: 'b' :: rest =>
    match rest with
    | [] => none
    | _ => (digitsToNat binDigitVal 2 rest 0).map fun v => (v : ℤ)
  | '0' :: 'B' :: rest =>
    match rest with
    | [] => none
    | _ => (digitsToNat binDigitVal 2 rest 0).map fun v => (v : ℤ)
  | _ =>
    let (neg, rest) : Bool × List Char :=
      match l with
      | '-' :: r => (true, r)
      | '+' :: r => (false, r)
      | _ => (false, l)
    match rest with
    | [] => none
    | _ => (digitsToNat decDigitVal 10 rest 0).map fun v =>
        if neg then -(v : ℤ) else (v : ℤ)

/-- `BigInt(x)` on the JavaScript values reachable from a parsed JSON
payload; `none` is `undefined` (a missing property).
`undefined` and `null` throw `TypeError`; booleans coerce to `0`/`1`;
a non-integral or non-finite number throws `RangeError`; a string goes
through `StringToBigInt` (`SyntaxError` on failure).  Arrays and plain
objects coerce via `toString`: `[]` gives `""` hence `0n`, `{}` gives
`"[object Object]"` hence `SyntaxError`; the remaining array cases are
approximated as `SyntaxError` (no claim exercises them). -/
def jsBigInt : Option Json → Except JsError ℤ
  | none => .error .typeError
  | some .null => .error .typeError
  | some (.bool b) => .ok (if b then 1 else 0)
  | some (.num (.finite sig ex)) =>
    if 0 ≤ ex then .ok (sig * 2 ^ ex.toNat)
    else
      let d : ℤ := 2 ^ (-ex).toNat
      if sig % d = 0 then .ok (sig / d) else .error .rangeError
  | some (.num .inf) => .error .rangeError
  | some (.num .negInf) => .error .rangeError
  | some (.str s) =>
    match strToBigInt s with
    | some n => .ok n
    | none => .error .syntaxError
  | some (.arr []) => .ok 0
  | some (.arr (_ :: _)) => .error .syntaxError
  | some (.obj _) => .error .syntaxError

/-- JavaScript property access `v.key` on a parsed JSON value: on an
object, the last binding of the key (duplicate keys: last wins);
`undefined` (`none`) on anything else or when the key is absent. -/
def jsGet (v : Json) (key : String) : Option Json :=
  match v with
  | .obj fields => (fields.reverse.find? fun p => p.1 = key).map fun p => p.2
  | _ => none

/-! ## `ethers.Transaction` and `Transfer.getTransaction` -/

/-- The structured transaction populated by `Transfer.getTransaction`,
modelled as a value type over the fields the source assigns
(`gasLimit` from `gas`, `data` from `input`).  `to` and `data` hold the
raw JSON property values. -/
structure EthersTransaction where
  chainId : ℤ
  nonce : ℤ
  maxPriorityFeePerGas : ℤ
  maxFeePerGas : ℤ
  gasLimit : ℤ
  /-- Source field `to` (`to` is reserved in Lean). -/
  toAddr : Option Json
  value : ℤ
  data : Option Json

/-- Errors observable from `Transfer.getTransaction`: the repository's
`InvalidUnsignedPayload` (with its message), or an uncaught native
JavaScript error escaping the field conversions. -/
inductive DecodeError where
  | invalidUnsignedPayload : String → DecodeError
  | uncaught : JsError → DecodeError
deriving DecidableEq

/-- The field-assignment block of `Transfer.getTransaction` (lines
166-173 of `transfer.ts`), in source order; the first failing `BigInt`
conversion escapes as an uncaught native error. -/
def assignFields (parsedPayload : Json) : Except JsError EthersTransaction := do
  let chainId ← jsBigInt (jsGet parsedPayload "chainId")
  let nonce ← jsBigInt (jsGet parsedPayload "nonce")
  let maxPriorityFeePerGas ← jsBigInt (jsGet parsedPayload "maxPriorityFeePerGas")
  let maxFeePerGas ← jsBigInt (jsGet parsedPayload "maxFeePerGas")
  let gasLimit ← jsBigInt (jsGet parsedPayload "gas")
  let toAddr := jsGet parsedPayload "to"
  let value ← jsBigInt (jsGet parsedPayload "value")
  let data := jsGet parsedPayload "input"
  return { chainId, nonce, maxPriorityFeePerGas, maxFeePerGas, gasLimit, toAddr, value, data }

/-- The full decoding pipeline of `Transfer.getTransaction` on an
unsigned payload string: hex-pair extraction (throwing
`InvalidUnsignedPayload "Unable to parse unsigned payload"` when `match`
returns `null`), UTF-8 decoding and `JSON.parse` (throwing
`InvalidUnsignedPayload "Unable to decode unsigned payload JSON"` on a
parse failure), then the field assignments. -/
def decodeUnsignedPayload (payload : String) : Except DecodeError EthersTransaction :=
  match getUnsignedPayloadBytes payload with
  | none => .error (.invalidUnsignedPayload "Unable to parse unsigned payload")
  | some bytes =>
    match jsonParse (String.mk (utf8Decode bytes)) with
    | none => .error (.invalidUnsignedPayload "Unable to decode unsigned payload JSON")
    | some parsedPayload => (assignFields parsedPayload).mapError .uncaught

/-! ## The `Transfer` record -/

/-- The server-issued `TransferModel` snapshot, restricted to the fields
`transfer.ts` reads.  `amount` is the API's string field (converted with
`BigInt` on access); `signed_payload` and `transaction_hash` are optional
in the model. -/
structure TransferModel where
  transfer_id : String
  network_id : String
  wallet_id : String
  address_id : String
  destination : String
  asset_id : String
  amount : String
  unsigned_payload : String
  signed_payload : Option String
  transaction_hash : Option String

/-- Mutable state of a `Transfer` instance: the model snapshot plus the
private `transaction` memoization cell (`this.transaction`). -/
structure TransferState where
  model : TransferModel
  transaction : Option EthersTransaction

/-- Modelled from the spec: the per-network atomic-unit divisor
`Coinbase.WEI_PER_ETHER` (defined in `coinbase.ts`, which is not in the
sources) — `10 ^ 18` for the 18-decimal native asset. -/
def WEI_PER_ETHER : ℤ := 10 ^ 18

/-- Modelled from the spec: the native-asset identifier
`Coinbase.assetList.Eth` (defined in `coinbase.ts`, which is not in the
sources). -/
def assetEth : String := "eth"

namespace Transfer

/-- `Transfer.getAmount`: `BigInt(this.model.amount)`, divided by
`WEI_PER_ETHER` when the asset is the native asset.  JavaScript `BigInt`
division truncates toward zero (`Int.tdiv`).  A `BigInt` conversion
failure on a malformed amount string escapes as a native error. -/
def getAmount (s : TransferState) : Except JsError ℤ :=
  match strToBigInt s.model.amount with
  | none => .error .syntaxError
  | some amount =>
    if s.model.asset_id = assetEth then .ok (Int.tdiv amount WEI_PER_ETHER)
    else .ok amount

/-- `Transfer.getTransaction`: return the memoized `this.transaction` if
present, otherwise decode the unsigned payload, store it in the cell and
return it.  The returned pair is (result, state after the call). -/
def getTransaction (s : TransferState) :
    Except DecodeError (EthersTransaction × TransferState) :=
  match s.transaction with
  | some t => .ok (t, s)
  | none =>
    match decodeUnsignedPayload s.model.unsigned_payload with
    | .ok t => .ok (t, { s with transaction := some t })
    | .error e => .error e

/-- `Transfer.setSignedTransaction`: `this.transaction = transaction`. -/
def setSignedTransaction (s : TransferState) (transaction : EthersTransaction) :
    TransferState :=
  { s with transaction := some transaction }

end Transfer

/-! ## `Transfer.getStatus` -/

/-- The `TransferStatus` enum (declared in `types.ts`, used by
`transfer.ts`). -/
inductive TransferStatus where
  | PENDING : TransferStatus
  | BROADCAST : TransferStatus
  | COMPLETE : TransferStatus
  | FAILED : TransferStatus
deriving DecidableEq

/-- An on-chain transaction as returned by the provider's
`getTransaction`, restricted to the field `getStatus` reads.
`blockHash` is `null` until the transaction is included in a block. -/
structure OnchainTransaction where
  blockHash : Option String

/-- A transaction receipt as returned by the provider's
`getTransactionReceipt`, restricted to the field `getStatus` reads.
`status` is `1` on success, `0` on revert, `null` on pre-Byzantium
chains. -/
structure TransactionReceipt where
  status : Option ℤ

/-- The blockchain data source (`client.baseSepoliaProvider`), modelled
as the responses it returns for a given hash (`none` is `null`).
Provider rejections abort `getStatus` before any state is produced and
are not modelled. -/
structure Provider where
  getTransaction : String → Option OnchainTransaction
  getTransactionReceipt : String → Option TransactionReceipt

/-- JavaScript truthiness of an optional string (`undefined`, `null` and
`""` are falsy). -/
def truthyStr : Option String → Bool
  | none => false
  | some s => s ≠ ""

/-- JavaScript truthiness of `transactionReceipt?.status`: the receipt
must be present and its status a nonzero number. -/
def truthyReceiptStatus : Option TransactionReceipt → Bool
  | none => false
  | some r =>
    match r.status with
    | none => false
    | some n => n ≠ 0

/-- `Transfer.getStatus` as a pure function of the record's
`transaction_hash` and the provider's responses:
no hash (or an empty one) → `PENDING`; transaction not found →
`PENDING`; found without a (truthy) `blockHash` → `BROADCAST`;
otherwise `COMPLETE` exactly when `transactionReceipt?.status` is
truthy, else `FAILED`. -/
def Transfer.getStatus (s : TransferState) (provider : Provider) : TransferStatus :=
  match s.model.transaction_hash with
  | none => .PENDING
  | some transactionHash =>
    if transactionHash = "" then .PENDING
    else
      match provider.getTransaction transactionHash with
      | none => .PENDING
      | some onchainTransaction =>
        if ¬ truthyStr onchainTransaction.blockHash then .BROADCAST
        else if truthyReceiptStatus (provider.getTransactionReceipt transactionHash) then
          .COMPLETE
        else .FAILED

/-! ## `Transfer.wait`

The polling loop, embedded with an idealized clock in integer
milliseconds (`Date.now()` is an integer count of milliseconds):
`getStatus` is instantaneous and `delay(intervalSeconds)` suspends for
exactly `intervalMs` milliseconds, so the elapsed time at the `k`-th
poll is `k * intervalMs`.  The source expresses both durations in
seconds and multiplies the timeout by 1000 for the comparison with
`Date.now()`; the embedding works directly in milliseconds (the default
arguments `0.2` s and `10` s are `200` ms and `10000` ms).  The provider
responses may change between polls (`providers k` is the data source at
poll `k`). -/

/-- A terminal status ends the loop. -/
def isTerminalStatus : TransferStatus → Bool
  | .COMPLETE => true
  | .FAILED => true
  | _ => false

/-- Outcome of `Transfer.wait`: the transfer returned after a terminal
status at poll `k`, or the thrown timeout `Error` (message and elapsed
milliseconds at the throw).  `outOfFuel` is unreachable for the fuel
used by `wait`. -/
inductive WaitOutcome where
  | completed : ℕ → TransferStatus → WaitOutcome
  | timedOut : String → ℕ → WaitOutcome
  | outOfFuel : WaitOutcome
deriving DecidableEq

/-- The `while` loop of `Transfer.wait`: at poll `k` (elapsed
`k * intervalMs`), if the elapsed time has reached `timeoutMs` the loop
exits and throws `Error("Transfer timed out")`; otherwise the status is
polled and a terminal status returns immediately. -/
def waitAux (status : ℕ → TransferStatus) (intervalMs timeoutMs : ℕ) :
    ℕ → ℕ → WaitOutcome
  | fuel, k =>
    if k * intervalMs < timeoutMs then
      match fuel with
      | 0 => .outOfFuel
      | fuel' + 1 =>
        if isTerminalStatus (status k) then .completed k (status k)
        else waitAux status intervalMs timeoutMs fuel' (k + 1)
    else .timedOut "Transfer timed out" (k * intervalMs)

/-- `Transfer.wait(intervalSeconds, timeoutSeconds)`: poll `getStatus`
against the per-poll data source until a terminal status or the
deadline, with durations in milliseconds. -/
def Transfer.wait (s : TransferState) (providers : ℕ → Provider)
    (intervalMs timeoutMs : ℕ) : WaitOutcome :=
  waitAux (fun k => Transfer.getStatus s (providers k)) intervalMs timeoutMs
    (timeoutMs / intervalMs + 1) 0

/-! ## Concrete inputs used by witnesses and counterexamples -/

/-- A model snapshot for the native asset with atomic amount
`2500000000000000000` (2.5 × 10^18) and a pending transaction hash. -/
def exampleModel : TransferModel :=
  { transfer_id := "transfer-123"
    network_id := "base-sepolia"
    wallet_id := "wallet-1"
    address_id := "address-1"
    destination := "address-2"
    asset_id := "eth"
    amount := "2500000000000000000"
    unsigned_payload := "7b7d"
    transaction_hash := some "0xhash"
    signed_payload := none }

/-- The same snapshot under a different operation identifier. -/
def exampleModelB : TransferModel :=
  { exampleModel with transfer_id := "transfer-456" }

/-- Hex encoding of the JSON text
`{"chainId":9007199254740993,"nonce":"0","maxPriorityFeePerGas":"0",
"maxFeePerGas":"0","gas":"0","to":"0x","value":"0","input":"0x"}`
whose `chainId` is the number literal `2 ^ 53 + 1`. -/
def payloadNumericChainId : String :=
  "7b22636861696e4964223a393030373139393235343734303939332c226e6f6e6365223a2230222c226d61785072696f72697479466565506572476173223a2230222c226d6178466565506572476173223a2230222c22676173223a2230222c22746f223a223078222c2276616c7565223a2230222c22696e707574223a223078227d"

/-- Hex encoding of the JSON text
`{"chainId":"1","nonce":"0","maxPriorityFeePerGas":"1000",
"maxFeePerGas":"2000","gas":"21000","to":"0xdead",
"value":"1000000000000000000000000000000","input":"0x"}`
whose numeric fields are all decimal strings (`value` is 10^30). -/
def payloadStringFields : String :=
  "7b22636861696e4964223a2231222c226e6f6e6365223a2230222c226d61785072696f72697479466565506572476173223a2231303030222c226d6178466565506572476173223a2232303030222c22676173223a223231303030222c22746f223a22307864656164222c2276616c7565223a2231303030303030303030303030303030303030303030303030303030303030222c22696e707574223a223078227d"

/-- The structured transaction decoded from `payloadStringFields`. -/
def exampleTx : EthersTransaction :=
  { chainId := 1, nonce := 0, maxPriorityFeePerGas := 1000, maxFeePerGas := 2000
    gasLimit := 21000, toAddr := some (.str "0xdead"), value := 10 ^ 30
    data := some (.str "0x") }

/-- A state holding `payloadStringFields` with an empty memo cell. -/
def exampleState : TransferState :=
  ⟨{ exampleModel with unsigned_payload := payloadStringFields }, none⟩

/-- A second structured transaction, differing from `exampleTx`. -/
def exampleTxB : EthersTransaction := { exampleTx with chainId := 2 }

/-- `exampleState` after its memo cell has been populated with
`exampleTx`. -/
def exampleStateCached : TransferState := ⟨exampleState.model, some exampleTx⟩

/-- A data source that knows nothing: both queries return `null`. -/
def pendingProvider : Provider := ⟨fun _ => none, fun _ => none⟩

/-- A data source that returns the transaction with a confirming block
hash but no receipt. -/
def inBlockNoReceiptProvider : Provider :=
  ⟨fun _ => some ⟨some "0xblockhash"⟩, fun _ => none⟩

/-! ## Helper lemmas about the polling loop -/

/-- If no poll ever observes a terminal status, `waitAux` exits at the
first deadline check that fails and throws the constant timeout error;
the elapsed time at the throw lies in `[T, T + i)` provided the entry
invariants hold. -/
theorem waitAux_timedOut_of_never_terminal (status : ℕ → TransferStatus)
    (i T : ℕ) (hnt : ∀ k, isTerminalStatus (status k) = false) :
    ∀ fuel k, k * i < T + i → T ≤ (k + fuel) * i →
      ∃ e, waitAux status i T fuel k = .timedOut "Transfer timed out" e ∧
        T ≤ e ∧ e < T + i := by
  intro fuel
  induction fuel with
  | zero =>
    intro k h₁ h₂
    have hcond : ¬ k * i < T := by
      have : (k + 0) * i = k * i := by ring
      rw [this] at h₂
      exact not_lt_of_le h₂
    exact ⟨k * i, by simp only [waitAux, if_neg hcond], le_of_not_lt hcond, h₁⟩
  | succ fuel ih =>
    intro k h₁ h₂
    by_cases hcond : k * i < T
    · have step : waitAux status i T (fuel + 1) k = waitAux status i T fuel (k + 1) := by
        simp only [waitAux, if_pos hcond, hnt k, Bool.false_eq_true, if_false]
      rw [step]
      refine ih (k + 1) ?_ ?_
      · have e1 : (k + 1) * i = k * i + i := by ring
        rw [e1]
        exact Nat.add_lt_add_right hcond i
      · have e2 : (k + 1 + fuel) * i = (k + (fuel + 1)) * i := by ring
        rw [e2]
        exact h₂
    · exact ⟨k * i, by simp only [waitAux, if_neg hcond], le_of_not_lt hcond, h₁⟩

/-- If the first terminal status appears at poll `m` and `m`'s deadline
check passes, `waitAux` returns it immediately (given enough fuel). -/
theorem waitAux_completed_of_first_terminal (status : ℕ → TransferStatus)
    (i T m : ℕ) (hterm : isTerminalStatus (status m) = true)
    (hfirst : ∀ j, j < m → isTerminalStatus (status j) = false)
    (hm : m * i < T) :
    ∀ fuel k, k ≤ m → m < k + fuel →
      waitAux status i T fuel k = .completed m (status m) := by
  intro fuel
  induction fuel with
  | zero => intro k hk hlt; omega
  | succ fuel ih =>
    intro k hk hlt
    have hcond : k * i < T := lt_of_le_of_lt (Nat.mul_le_mul_right i hk) hm
    rcases eq_or_lt_of_le hk with heq | hlt2
    · subst heq
      simp only [waitAux, if_pos hcond, hterm, if_true]
    · have step : waitAux status i T (fuel + 1) k = waitAux status i T fuel (k + 1) := by
        simp only [waitAux, if_pos hcond, hfirst k hlt2, Bool.false_eq_true, if_false]
      rw [step]
      exact ih (k + 1) hlt2 (by omega)

/-- The fuel `Transfer.wait` passes to the loop covers the deadline:
`T ≤ (T / i + 1) * i` for `i > 0`. -/
theorem wait_fuel_covers (i T : ℕ) (hi : 0 < i) : T ≤ (T / i + 1) * i := by
  have h1 : i * (T / i) + T % i = T := Nat.div_add_mod T i
  have h2 : T % i < i := Nat.mod_lt _ hi
  calc T = i * (T / i) + T % i := h1.symm
    _ ≤ i * (T / i) + i := Nat.add_le_add_left (le_of_lt h2) _
    _ = (T / i + 1) * i := by ring

/-! ## Claim theorems -/

/-- C1: evaluation at the failing input.  For the native asset (`"eth"`)
and atomic amount `2500000000000000000` (2.5 × 10^18),
`Transfer.getAmount` returns the `bigint` `2`: JavaScript `BigInt`
division truncates, and no integer times the divisor recovers the stored
amount, so the display value is not the exact `2.5` the specification's
exactness property requires (a `bigint` cannot even represent it). -/
theorem c1_getAmount_truncates_at_failing_input :
    Transfer.getAmount ⟨exampleModel, none⟩ = .ok 2 ∧
    2 * WEI_PER_ETHER ≠ (2500000000000000000 : ℤ) :=
  ⟨rfl, by decide⟩

/-- C2 counterexample: with the transaction found and carrying a block
hash but the receipt query returning `null`, `Transfer.getStatus`
resolves to `FAILED`, not `BROADCAST`: `transactionReceipt?.status` is
`undefined`, which is falsy, so the ternary takes the `FAILED` branch. -/
theorem c2_counterexample_absent_receipt_is_failed :
    Transfer.getStatus ⟨exampleModel, none⟩ inBlockNoReceiptProvider = .FAILED ∧
    TransferStatus.FAILED ≠ TransferStatus.BROADCAST :=
  ⟨rfl, by decide⟩

/-- C2 amended: for every record whose hash resolves to a transaction
with a (truthy) block reference while the receipt query returns `null`,
`Transfer.getStatus` yields `FAILED` — the absent receipt is conflated
with an unsuccessful receipt, not treated as `BROADCAST`. -/
theorem c2_amended_absent_receipt_yields_failed (s : TransferState)
    (provider : Provider) (h : String) (tx : OnchainTransaction)
    (hh : s.model.transaction_hash = some h) (hne : h ≠ "")
    (htx : provider.getTransaction h = some tx)
    (hb : truthyStr tx.blockHash = true)
    (hr : provider.getTransactionReceipt h = none) :
    Transfer.getStatus s provider = .FAILED := by
  simp only [Transfer.getStatus, hh, htx, hr]
  rw [if_neg hne]
  simp [hb, truthyReceiptStatus]

/-- C2 amended, witness: the amended statement evaluated on a concrete
record and data source. -/
theorem c2_amended_witness :
    Transfer.getStatus ⟨exampleModel, none⟩ inBlockNoReceiptProvider = .FAILED :=
  c2_amended_absent_receipt_yields_failed ⟨exampleModel, none⟩
    inBlockNoReceiptProvider "0xhash" ⟨some "0xblockhash"⟩ rfl (by decide)
    rfl (by decide) rfl

/-- C5 counterexample: `setSignedTransaction` applied twice with two
different transactions leaves the second one in the record — the first
value is silently overwritten, neither rejected nor a no-op. -/
theorem c5_counterexample_second_set_overwrites :
    (Transfer.setSignedTransaction
        (Transfer.setSignedTransaction ⟨exampleModel, none⟩ exampleTx)
        exampleTxB).transaction = some exampleTxB ∧
    exampleTxB.chainId ≠ exampleTx.chainId :=
  ⟨rfl, by decide⟩

/-- C5 amended: `setSignedTransaction` unconditionally stores its
argument: after setting `t₁` and then `t₂`, the record holds `t₂` — the
source has no guard, so a previously set value is always overwritten. -/
theorem c5_amended_setter_unconditionally_overwrites (s : TransferState)
    (t₁ t₂ : EthersTransaction) :
    (Transfer.setSignedTransaction (Transfer.setSignedTransaction s t₁)
      t₂).transaction = some t₂ :=
  rfl

/-- C6 counterexample: two records with different operation identifiers
time out with the identical thrown error (`Error("Transfer timed out")`
with the same elapsed time), so the error cannot identify which
operation timed out. -/
theorem c6_counterexample_error_identical_across_operations :
    Transfer.wait ⟨exampleModel, none⟩ (fun _ => pendingProvider) 200 1000 =
        .timedOut "Transfer timed out" 1000 ∧
    Transfer.wait ⟨exampleModelB, none⟩ (fun _ => pendingProvider) 200 1000 =
        .timedOut "Transfer timed out" 1000 ∧
    exampleModelB.transfer_id ≠ exampleModel.transfer_id :=
  ⟨rfl, rfl, by decide⟩

/-- C6 amended: when the deadline is exceeded without a terminal state,
the raised error is the constant `Error("Transfer timed out")` — the
same message for every record, carrying the operation kind but no
operation identifier. -/
theorem c6_amended_timeout_message_constant (s : TransferState)
    (providers : ℕ → Provider) (i T : ℕ) (hi : 0 < i) (hT : 0 < T)
    (hnt : ∀ k, isTerminalStatus (Transfer.getStatus s (providers k)) = false) :
    ∃ e, Transfer.wait s providers i T = .timedOut "Transfer timed out" e := by
  obtain ⟨e, he, -, -⟩ :=
    waitAux_timedOut_of_never_terminal
      (fun k => Transfer.getStatus s (providers k)) i T hnt (T / i + 1) 0
      (by have e0 : 0 * i = 0 := by ring
          rw [e0]; omega)
      (by have e0 : (0 + (T / i + 1)) * i = (T / i + 1) * i := by ring
          rw [e0]; exact wait_fuel_covers i T hi)
  exact ⟨e, he⟩

/-- C6 amended, witness: the constant message observed on a concrete
record. -/
theorem c6_amended_witness :
    ∃ e, Transfer.wait ⟨exampleModel, none⟩ (fun _ => pendingProvider) 200 1000 =
      .timedOut "Transfer timed out" e :=
  c6_amended_timeout_message_constant ⟨exampleModel, none⟩
    (fun _ => pendingProvider) 200 1000 (by decide) (by decide) (fun _ => rfl)

/-- C10: after `setSignedTransaction(tx)`, `getTransaction` returns `tx`
itself (and leaves the state unchanged): the setter writes the same
`this.transaction` memoization cell that `getTransaction` consults
first, so the accessor stops reflecting the unsigned payload. -/
theorem c10_getTransaction_returns_set_transaction (s : TransferState)
    (t : EthersTransaction) :
    Transfer.getTransaction (Transfer.setSignedTransaction s t) =
      .ok (t, Transfer.setSignedTransaction s t) :=
  rfl

/-- C8: timing of the polling loop, for every interval `i > 0` and
timeout `T > 0` (in milliseconds, the clock's resolution).  (1) If no
poll ever observes a terminal status, `wait` throws the timeout error at
an elapsed time `e` with `T ≤ e < T + i` — never earlier than `T`.
(2) If the first terminal status (`COMPLETE` or `FAILED`) is observed at
poll `m` and the loop is still inside its deadline at `m`, `wait`
returns it immediately at that poll. -/
theorem c8_wait_timeout_bounds_and_immediate_return (s : TransferState)
    (providers : ℕ → Provider) (i T : ℕ) (hi : 0 < i) (hT : 0 < T) :
    ((∀ k, isTerminalStatus (Transfer.getStatus s (providers k)) = false) →
      ∃ e, Transfer.wait s providers i T = .timedOut "Transfer timed out" e ∧
        T ≤ e ∧ e < T + i) ∧
    (∀ m, isTerminalStatus (Transfer.getStatus s (providers m)) = true →
      (∀ j, j < m → isTerminalStatus (Transfer.getStatus s (providers j)) = false) →
      m * i < T →
      Transfer.wait s providers i T =
        .completed m (Transfer.getStatus s (providers m))) := by
  constructor
  · intro hnt
    exact waitAux_timedOut_of_never_terminal
      (fun k => Transfer.getStatus s (providers k)) i T hnt (T / i + 1) 0
      (by have e0 : 0 * i = 0 := by ring
          rw [e0]; omega)
      (by have e0 : (0 + (T / i + 1)) * i = (T / i + 1) * i := by ring
          rw [e0]; exact wait_fuel_covers i T hi)
  · intro m hterm hfirst hm
    have hmle : m ≤ T / i := (Nat.le_div_iff_mul_le hi).mpr (le_of_lt hm)
    exact waitAux_completed_of_first_terminal
      (fun k => Transfer.getStatus s (providers k)) i T m hterm hfirst hm
      (T / i + 1) 0 (Nat.zero_le m) (by simpa using Nat.lt_succ_of_le hmle)

/-- C8, witness: with a data source that never resolves, the default
parameters (200 ms interval, 10 s timeout would also do; here 1 s) time
out at an elapsed time in `[1000, 1200)`. -/
theorem c8_witness :
    ∃ e, Transfer.wait ⟨exampleModel, none⟩ (fun _ => pendingProvider) 200 1000 =
      .timedOut "Transfer timed out" e ∧ 1000 ≤ e ∧ e < 1000 + 200 :=
  (c8_wait_timeout_bounds_and_immediate_return ⟨exampleModel, none⟩
    (fun _ => pendingProvider) 200 1000 (by decide) (by decide)).1 (fun _ => rfl)

/-- C9: decoding is idempotent and memoized.  If `getTransaction`
returns `t` with post-state `s'`, then the memo cell of `s'` holds `t`,
a repeated call returns the structurally equal `t` with the state
unchanged, and — showing the cached value is never recomputed — any
state whose cell holds `t` returns `t` regardless of its unsigned
payload. -/
theorem c9_getTransaction_idempotent_and_memoized (s : TransferState)
    (t : EthersTransaction) (s' : TransferState)
    (h : Transfer.getTransaction s = .ok (t, s')) :
    s'.transaction = some t ∧
    Transfer.getTransaction s' = .ok (t, s') ∧
    ∀ m : TransferModel,
      Transfer.getTransaction ⟨m, some t⟩ = .ok (t, ⟨m, some t⟩) := by
  cases hc : s.transaction with
  | some t₀ =>
    simp only [Transfer.getTransaction, hc] at h
    rw [Except.ok.injEq, Prod.mk.injEq] at h
    obtain ⟨h₁, h₂⟩ := h
    subst h₁
    subst h₂
    exact ⟨hc, by simp only [Transfer.getTransaction, hc], fun m => rfl⟩
  | none =>
    simp only [Transfer.getTransaction, hc] at h
    cases hd : decodeUnsignedPayload s.model.unsigned_payload with
    | ok t₀ =>
      simp only [hd] at h
      rw [Except.ok.injEq, Prod.mk.injEq] at h
      obtain ⟨h₁, h₂⟩ := h
      subst h₁
      subst h₂
      exact ⟨rfl, rfl, fun m => rfl⟩
    | error e =>
      simp only [hd] at h
      exact absurd h (by simp)

/-- C9, witness: the concrete string-field payload decodes to
`exampleTx`; the repeated call returns the same structured transaction
from the populated cell. -/
theorem c9_witness :
    exampleStateCached.transaction = some exampleTx ∧
    Transfer.getTransaction exampleStateCached = .ok (exampleTx, exampleStateCached) ∧
    ∀ m : TransferModel,
      Transfer.getTransaction ⟨m, some exampleTx⟩ = .ok (exampleTx, ⟨m, some exampleTx⟩) :=
  c9_getTransaction_idempotent_and_memoized exampleState exampleTx
    exampleStateCached (by rfl)

/-- C7 counterexample: the payload `"7b7d"` decodes to the valid JSON
`\x7b\x7d` (an object with every required field missing), and decoding
fails with an uncaught native `TypeError` from `BigInt(undefined)` —
not with any `InvalidUnsignedPayload` error (the source has no
`InvalidPayloadSchema` at all: the `try` block ends before the field
conversions). -/
theorem c7_counterexample_missing_fields_uncaught_typeerror :
    decodeUnsignedPayload "7b7d" = .error (.uncaught .typeError) :=
  rfl

/-- C7 amended: for every parsed payload on which the `chainId` property
is `undefined` (missing or not an object), the field-conversion block
fails with an uncaught native `TypeError` raised by `BigInt(undefined)`:
there is no dedicated schema error. -/
theorem c7_amended_missing_chainid_native_typeerror (parsedPayload : Json)
    (h : jsGet parsedPayload "chainId" = none) :
    assignFields parsedPayload = .error .typeError := by
  simp only [assignFields, h, jsBigInt]
  rfl

/-- C7 amended, witness: the empty JSON object. -/
theorem c7_amended_witness : assignFields (Json.obj []) = .error .typeError :=
  c7_amended_missing_chainid_native_typeerror (Json.obj []) rfl

/-- C3 counterexample: decoding the odd-length payload `"0x1"` does not
raise the hex-stage error (`"Unable to parse unsigned payload"`, the
spec's `MalformedPayload`): `"0x1".match(/../g)` is `["0x"]`, not
`null`, so decoding proceeds and fails only at the JSON stage with the
distinct `"Unable to decode unsigned payload JSON"` error. -/
theorem c3_counterexample_odd_length_not_hex_error :
    decodeUnsignedPayload "0x1" =
      .error (.invalidUnsignedPayload "Unable to decode unsigned payload JSON") ∧
    "Unable to decode unsigned payload JSON" ≠ "Unable to parse unsigned payload" :=
  ⟨rfl, by decide⟩

/-- C3: characterization of the hex-stage error.  The
`InvalidUnsignedPayload "Unable to parse unsigned payload"` error is
raised exactly when `match(/../g)` finds no pair at all (in particular
for strings shorter than two characters) — not for every odd-length or
non-hex payload.  In particular `"0x1"` is not rejected at the hex
stage: the regexp drops the trailing `"1"`, `parseInt("0x", 16)` is
`NaN`, the byte becomes `0`, and decoding fails at the JSON stage with
the other error message instead. -/
theorem c3_hex_error_characterized :
    (∀ s : String,
      decodeUnsignedPayload s =
          .error (.invalidUnsignedPayload "Unable to parse unsigned payload") ↔
        jsDotPairs s.toList = []) ∧
    decodeUnsignedPayload "0x1" =
      .error (.invalidUnsignedPayload "Unable to decode unsigned payload JSON") := by
  refine ⟨fun s => ⟨fun h => ?_, fun h => ?_⟩, rfl⟩
  · by_contra hne
    obtain ⟨p, rest, hp⟩ : ∃ p rest, jsDotPairs s.toList = p :: rest := by
      cases hps : jsDotPairs s.toList with
      | nil => exact absurd hps hne
      | cons p rest => exact ⟨p, rest, rfl⟩
    simp only [decodeUnsignedPayload, getUnsignedPayloadBytes, hp] at h
    cases hj : jsonParse (String.mk (utf8Decode
        ((p :: rest).map fun q => toUint8 (jsParseIntHex [q.1, q.2])))) with
    | none =>
      simp only [hj] at h
      injection h with h'
      injection h' with h''
      exact absurd h'' (by decide)
    | some v =>
      simp only [hj] at h
      cases ha : assignFields v with
      | ok tx => simp [ha, Except.mapError] at h
      | error e => simp [ha, Except.mapError] at h
  · simp only [decodeUnsignedPayload, getUnsignedPayloadBytes, h]

/-- C4 counterexample: a payload whose `chainId` is the JSON number
literal `9007199254740993` (2^53 + 1).  The bytes decode to exactly that
JSON text, yet the decoded `chainId` is `9007199254740992`:
`JSON.parse` materializes the literal as an IEEE-754 double before
`BigInt` sees it, so a numeric field just above the safe integer range
is not preserved exactly. -/
theorem c4_counterexample_number_literal_rounds :
    String.mk (utf8Decode ((getUnsignedPayloadBytes payloadNumericChainId).getD [])) =
      "\x7b\"chainId\":9007199254740993,\"nonce\":\"0\",\"maxPriorityFeePerGas\":\"0\",\"maxFeePerGas\":\"0\",\"gas\":\"0\",\"to\":\"0x\",\"value\":\"0\",\"input\":\"0x\"\x7d" ∧
    (decodeUnsignedPayload payloadNumericChainId).toOption.map
        EthersTransaction.chainId = some 9007199254740992 ∧
    (9007199254740992 : ℤ) ≠ 9007199254740993 :=
  ⟨rfl, rfl, by decide⟩

/-- C4 amended: numeric fields carried as JSON strings are converted by
`BigInt`'s exact arbitrary-precision string parsing — no floating-point
step — so such values of any size (in particular above 2^53) are
preserved exactly in the structured transaction; numeric fields carried
as JSON number literals instead pass through binary64 in `JSON.parse`
and are rounded above 2^53. -/
theorem c4_amended_string_numeric_fields_exact
    (cs ns ps fs gs vs : String) (tov inv : Json) (cv nv pv fv gv vv : ℤ)
    (hc : strToBigInt cs = some cv) (hn : strToBigInt ns = some nv)
    (hp : strToBigInt ps = some pv) (hf : strToBigInt fs = some fv)
    (hg : strToBigInt gs = some gv) (hv : strToBigInt vs = some vv) :
    assignFields (Json.obj
      [("chainId", .str cs), ("nonce", .str ns),
       ("maxPriorityFeePerGas", .str ps), ("maxFeePerGas", .str fs),
       ("gas", .str gs), ("to", tov), ("value", .str vs), ("input", inv)]) =
    .ok { chainId := cv, nonce := nv, maxPriorityFeePerGas := pv,
          maxFeePerGas := fv, gasLimit := gv, toAddr := some tov,
          value := vv, data := some inv } := by
  simp [assignFields, jsGet, jsBigInt, hc, hn, hp, hf, hg, hv, List.find?]
  rfl

/-- C4 amended, witness: the string-encoded value 10^30 — far above the
safe double range — is preserved exactly. -/
theorem c4_amended_witness :
    assignFields (Json.obj
      [("chainId", .str "1"), ("nonce", .str "0"),
       ("maxPriorityFeePerGas", .str "1000"), ("maxFeePerGas", .str "2000"),
       ("gas", .str "21000"), ("to", .str "0xdead"),
       ("value", .str "1000000000000000000000000000000"),
       ("input", .str "0x")]) =
    .ok { chainId := 1, nonce := 0, maxPriorityFeePerGas := 1000,
          maxFeePerGas := 2000, gasLimit := 21000,
          toAddr := some (.str "0xdead"),
          value := 1000000000000000000000000000000,
          data := some (.str "0x") } :=
  c4_amended_string_numeric_fields_exact "1" "0" "1000" "2000" "21000"
    "1000000000000000000000000000000" (.str "0xdead") (.str "0x")
    1 0 1000 2000 21000 1000000000000000000000000000000
    rfl rfl rfl rfl rfl rfl

end CoinbaseSdk
